import Mathlib

/-!
# Verification of the tomatocode realtime session backend

Shallow embedding of the in-memory realtime server
(`src/backend/sessionManager.js`, in-memory variant: session store, socket
handlers, per-student summary rate limiter, Python command whitelist) and of
the evaluator client (`src/backend/AIsummary.js`).

Conventions:
* timestamps are `Nat` milliseconds (the JS code uses `Date.now()` /
  ISO strings; only ordering and differences matter to the claims);
* the JS object `students` (name -> record) is an association list;
* socket emissions are collected into an explicit list of
  (target socket id, event) pairs;
* JS truthiness of strings is `≠ ""`, of numbers `≠ 0`, of optionals
  `Option.isSome`.
-/

namespace Tomatocode

/-- Progress/feedback record produced by the evaluator
(`{progress, feedback}` in `AIsummary.js`). -/
structure Summary where
  progress : String
  feedback : String
deriving Repr, DecidableEq

/-- `lastExecution` record stored on a student. -/
structure Execution where
  result : String
  error : Option String
  timestamp : Nat
deriving Repr, DecidableEq

/-- A slide: `{prompt, hasCodingTask}`. -/
structure Slide where
  prompt : String
  hasCodingTask : Bool
deriving Repr, DecidableEq

/-- A student record as stored in `session.students[name]`
(in-memory server, `join-session` handler). Fields that a given code path
does not set are `none` / defaults, mirroring absent JS object keys. -/
structure Student where
  joinedAt : Nat := 0
  code : String := ""
  socketId : Option Nat := none
  lastActive : Nat := 0
  reconnectToken : Option String := none
  summary : Option Summary := none
  lastExecution : Option Execution := none
  disconnectedAt : Option Nat := none
  reconnectedAt : Option Nat := none
deriving Repr, DecidableEq

/-- A session document (`sessionData` built in `createSession`). -/
structure Session where
  sessionCode : String
  title : String := "Coding Session"
  description : String := "Interactive coding session"
  language : String := "javascript"
  initialCode : String := ""
  currentCode : String := ""
  slides : List Slide := []
  currentSlide : Int := 0
  createdAt : Nat := 0
  updatedAt : Nat := 0
  students : List (String × Student) := []
  active : Bool := true
  teacherSocketId : Option Nat := none
deriving Repr, DecidableEq

/-- Association-list lookup (JS `obj[key]`, `undefined` as `none`). -/
def alookup {α : Type} (l : List (String × α)) (k : String) : Option α :=
  match l with
  | [] => none
  | (k', v) :: rest => if k' = k then some v else alookup rest k

/-- Association-list insert/overwrite (JS `obj[key] = v`). -/
def aset {α : Type} (l : List (String × α)) (k : String) (v : α) :
    List (String × α) :=
  match l with
  | [] => [(k, v)]
  | (k', v') :: rest => if k' = k then (k, v) :: rest else (k', v') :: aset rest k v

/-- Association-list delete (JS `delete obj[key]`). -/
def adel {α : Type} (l : List (String × α)) (k : String) : List (String × α) :=
  match l with
  | [] => []
  | (k', v') :: rest => if k' = k then rest else (k', v') :: adel rest k

/-- The in-memory session store `inMemoryDB.sessions`. -/
abbrev SessionDB := List (String × Session)

/-- `session.slides[i]` for a JS number index: `undefined` when negative,
fractional-free out-of-range, or the deck is empty. -/
def getSlide? (slides : List Slide) (i : Int) : Option Slide :=
  if h : 0 ≤ i ∧ i.toNat < slides.length then
    some (slides.get ⟨i.toNat, h.2⟩)
  else none

/-- `isSlideWithCoding(session, slideIndex)`: `!!slides[slideIndex].hasCodingTask`
when the slide exists, else `false`. -/
def isSlideWithCoding (s : Session) (slideIndex : Int) : Bool :=
  match getSlide? s.slides slideIndex with
  | some sl => sl.hasCodingTask
  | none => false

/- ------------------------------------------------------------------
Evaluator client, `src/backend/AIsummary.js`.

`analyzeStudentCode` calls the external model once per attempt; we model the
sequence of attempt outcomes the external API would produce as a list, one
entry consumed per call. The JS `catch` distinguishes `error.status === 429`
(wait `delay(10000)` then recurse) from any other error (return
`defaultResponse()`); a response with no parsable function call also returns
`defaultResponse()`.
------------------------------------------------------------------- -/

/-- Outcome of one attempt against the external model. -/
inductive ApiOutcome
  | ok (r : Summary)
  | noFunctionCall
  | apiRateLimited
  | apiError
deriving Repr, DecidableEq

/-- `defaultResponse()` in `AIsummary.js`. -/
def defaultResponse : Summary :=
  { progress := "notStarted", feedback := "Please start" }

/-- The back-off before a rate-limit retry: `await delay(10000)` in
`AIsummary.js` (milliseconds). -/
def retryDelayMs : Nat := 10000

/-- Is this attempt outcome a 429 rate-limit error? -/
def ApiOutcome.isRateLimited : ApiOutcome → Bool
  | .apiRateLimited => true
  | _ => false

/-- `analyzeStudentCode` from `AIsummary.js`, abstracted over the stream of
attempt outcomes: a parsed function call returns its payload, an invalid
response or non-429 error returns the default, and a 429 waits
`retryDelayMs` and recurses on the remaining attempts. An exhausted (empty)
outcome list stands for the call still being in flight; it is irrelevant to
every run in which some attempt eventually completes. -/
def analyzeStudentCode : List ApiOutcome → Summary
  | [] => defaultResponse
  | o :: rest =>
    match o with
    | .ok r => r
    | .noFunctionCall => defaultResponse
    | .apiError => defaultResponse
    | .apiRateLimited => analyzeStudentCode rest

/-- `evaluateSubmission` wraps `analyzeStudentCode`; its own `catch` returns
the default, and `analyzeStudentCode` never throws, so it is the same
function of the outcome stream. -/
def evaluateSubmission (outcomes : List ApiOutcome) : Summary :=
  analyzeStudentCode outcomes

/-- Total number of attempts made against the external model for a given
outcome stream: every leading 429 consumes one attempt and retries. -/
def attemptsUsed : List ApiOutcome → Nat
  | [] => 0
  | o :: rest =>
    match o with
    | .apiRateLimited => 1 + attemptsUsed rest
    | _ => 1

/- ------------------------------------------------------------------
Per-student summary rate limiter, `src/backend/sessionManager.js`
(`summaryRateLimiter` / `generateCodeSummary`).

`summaryRateLimiter` maps `sessionCode + ":" + studentName` to the
`Date.now()` of the last accepted call. A call is refused (returns `null`,
no evaluator invocation) when the stored time is truthy and younger than
10000 ms. An accepted call stores `now` and schedules a timer that, 20000 ms
later, deletes the entry if it still holds that same `now`.
------------------------------------------------------------------- -/

/-- The accept test of `generateCodeSummary` for one key: given the slot
state (stored last-accepted time, if any) and the current time, is the call
accepted? Mirrors `if (lastTime && now - lastTime < 10000) return null`
(JS truthiness of `lastTime` is `≠ 0`; with monotone clocks `now - lastTime`
agrees with `Nat` subtraction). -/
def rlAccepts (slot : Option Nat) (now : Nat) : Bool :=
  match slot with
  | some lastTime => !(lastTime ≠ 0 && now - lastTime < 10000)
  | none => true

/-- Events touching one rate-limiter key: an incoming
`generateCodeSummary` call at time `t`, or the expiry timer scheduled by an
accepted call at time `t0` (it fires at `t0 + 20000` and deletes the slot
only if the slot still holds `t0`). -/
inductive RLEvent
  | call (t : Nat)
  | expire (t0 : Nat)
deriving Repr, DecidableEq

/-- Wall-clock time at which an event happens. -/
def RLEvent.time : RLEvent → Nat
  | .call t => t
  | .expire t0 => t0 + 20000

/-- One step of the rate limiter for a fixed key; returns the new slot state
and whether the evaluator was invoked. -/
def rlStep (slot : Option Nat) : RLEvent → Option Nat × Bool
  | .call t => if rlAccepts slot t then (some t, true) else (slot, false)
  | .expire t0 => (if slot = some t0 then none else slot, false)

/-- Run a sequence of events from a slot state, collecting the times of the
calls that actually invoked the evaluator. -/
def rlRun (slot : Option Nat) : List RLEvent → List Nat
  | [] => []
  | e :: rest =>
    match e with
    | .call t =>
      if rlAccepts slot t then t :: rlRun (some t) rest
      else rlRun slot rest
    | .expire t0 => rlRun (if slot = some t0 then none else slot) rest

/-- A well-formed event sequence: event times are nondecreasing and every
call carries a positive clock value (`Date.now() > 0`). -/
def RLValid (evs : List RLEvent) : Prop :=
  evs.Pairwise (fun a b => a.time ≤ b.time) ∧
    ∀ t, RLEvent.call t ∈ evs → 1 ≤ t

/-- Consecutive accepted calls are at least 10 seconds apart. -/
def Sep10 (l : List Nat) : Prop :=
  l.Chain' (fun a b => a + 10000 ≤ b)

/- ------------------------------------------------------------------
Command whitelist of the code executor, `src/backend/sessionManager.js`
(`execPromise`).

`execPromise` rejects, before spawning any child process, every command
string that fails
  `/^python[3]?\s+["']?([\/\\a-zA-Z0-9_\-\.]+\.py)["']?(\s+.*)?$/`.
The parser below is that regex made executable; it returns the captured
path. Determinism notes (why no backtracking is needed): after `python`,
taking an optional `3` is forced because `\s` cannot match `3`; the quote
characters are not path characters, so consuming an optional quote is
forced; the capture must cover the whole maximal path-character run, since
the character after the capture must be a quote, whitespace or the end.
------------------------------------------------------------------- -/

/-- The character class `[\/\\a-zA-Z0-9_\-\.]` of the whitelist regex. -/
def isPathChar (c : Char) : Bool :=
  c = '/' || c = '\\' || c.isAlpha || c.isDigit || c = '_' || c = '-' || c = '.'

/-- JS `\s` on the characters that can appear here. -/
def isWsChar (c : Char) : Bool :=
  c = ' ' || c = '\t' || c = '\n' || c = '\r' || c = '\x0b' || c = '\x0c'

/-- A quote admitted by `["']?`. -/
def isQuoteChar (c : Char) : Bool :=
  c = '"' || c = '\''

/-- Consume `python[3]?` from the head of the character list. -/
def stripPythonCmd : List Char → Option (List Char)
  | 'p' :: 'y' :: 't' :: 'h' :: 'o' :: 'n' :: rest =>
    match rest with
    | '3' :: rest2 => some rest2
    | _ => some rest
  | _ => none

/-- Consume an optional single quote character. -/
def stripOptQuote : List Char → List Char
  | [] => []
  | c :: rest => if isQuoteChar c then rest else c :: rest

/-- Does the captured run end in the literal `.py` with a nonempty
`[...]+` body before it (i.e. has length ≥ 4)? -/
def endsWithDotPy (p : List Char) : Bool :=
  4 ≤ p.length && (p.drop (p.length - 3) = ['.', 'p', 'y'])

/-- The whitelist regex of `execPromise` as a parser; returns the captured
`.py` path on a match. -/
def parseSafeCommand (cmd : String) : Option (List Char) :=
  match stripPythonCmd cmd.data with
  | none => none
  | some r1 =>
    let ws := r1.takeWhile isWsChar
    if ws.isEmpty then none
    else
      let r2 := r1.drop ws.length
      let r3 := stripOptQuote r2
      let p := r3.takeWhile isPathChar
      if endsWithDotPy p then
        let r4 := stripOptQuote (r3.drop p.length)
        match r4 with
        | [] => some p
        | c :: _ => if isWsChar c then some p else none
      else none

/-- Outcome of `execPromise` as far as process creation is concerned. -/
inductive ExecOutcome
  | rejected (message : String)
  | spawned (path : List Char)
deriving Repr, DecidableEq

/-- `execPromise`: commands failing the whitelist regex are rejected with an
error before `exec` is called; matching commands spawn the interpreter on
the captured path. -/
def execPromise (cmd : String) : ExecOutcome :=
  match parseSafeCommand cmd with
  | none => .rejected "Only Python execution with safe parameters is allowed"
  | some p => .spawned p

/-- Did `execPromise` spawn a child process? -/
def ExecOutcome.didSpawn : ExecOutcome → Bool
  | .rejected _ => false
  | .spawned _ => true

/- ------------------------------------------------------------------
Socket layer of the in-memory server (`codeIO.on('connection', ...)` in
`src/backend/sessionManager.js`).

A `Sock` is one connected endpoint: its id, the room it has joined
(`socket.join(sessionCode)`), and its `socket.data`. Outbound events are
collected as (target socket id, event) pairs; `codeIO.in(code).fetchSockets()`
is a filter over the connected-socket list. The auxiliary `sessionInfo`
map (UI metadata: title, student count, `slidesWithCode` cache) and the
idle/summary timers are bookkeeping outside the session documents and are
not part of the modeled state.
------------------------------------------------------------------- -/

/-- `socket.data` as set by the join/reconnect handlers. -/
structure SockData where
  name : String
  sessionCode : String
  isTeacher : Bool
  reconnectToken : Option String := none
  reconnected : Bool := false
deriving Repr, DecidableEq

/-- A connected socket. -/
structure Sock where
  id : Nat
  room : Option String := none
  data : Option SockData := none
deriving Repr, DecidableEq

/-- Outbound protocol events (payload timestamps omitted: the handlers
always stamp `new Date().toISOString()`either way). -/
inductive Event
  | sessionData (s : Session) (reconnectToken : Option String)
  | slideChange (index : Int) (hasCodeEditor : Bool) (prompt : Option String)
  | userJoined (name : String)
  | userLeft (name : String)
  | studentCodeUpdate (studentName : String) (code : String)
  | studentSummaryUpdate (studentName : String) (summary : Summary)
  | executionResult (result : String) (error : Option String)
  | studentExecutionResult (studentName : String) (result : String) (error : Option String)
  | codeRestore (code : String)
  | errorMsg (message : String)
deriving Repr, DecidableEq

/-- `inMemoryDB.sessions.get(code)`. -/
def dbGet (db : SessionDB) (code : String) : Option Session := alookup db code

/-- `inMemoryDB.sessions.set(code, s)`. -/
def dbSet (db : SessionDB) (code : String) (s : Session) : SessionDB :=
  aset db code s

/-- The sockets of a room that carry the teacher flag:
`(await codeIO.in(code).fetchSockets()).filter(s => s.data?.isTeacher)`. -/
def teachersIn (room : List Sock) (sessionCode : String) : List Sock :=
  room.filter fun s =>
    s.room = some sessionCode &&
      (match s.data with
       | some d => d.isTeacher
       | none => false)

/-- Result of a socket handler: the store, the emissions, the caller's
updated socket. -/
structure HandlerResult where
  db : SessionDB
  emits : List (Nat × Event)
  sock : Sock
deriving Repr, DecidableEq

/-- `updateStudentCode(sessionCode, studentName, code)` of the in-memory
server: sets `code` and `lastActive` when the session and the student
exist, else reports failure and changes nothing. -/
def updateStudentCode (db : SessionDB) (sessionCode studentName code : String)
    (now : Nat) : SessionDB × Bool :=
  match alookup db sessionCode with
  | none => (db, false)
  | some session =>
    match alookup session.students studentName with
    | none => (db, false)
    | some st =>
      let st' := { st with code := code, lastActive := now }
      (dbSet db sessionCode
        { session with students := aset session.students studentName st' }, true)

/-- The `reconnect-session` handler. The payload's `token` field is part of
the wire protocol but — exactly as in the source — is never inspected. -/
def reconnectSessionHandler (db : SessionDB) (self : Sock)
    (sessionCode name : String) (token : Option String) (now : Nat) :
    HandlerResult :=
  if sessionCode = "" || name = "" then
    ⟨db, [(self.id, .errorMsg "Missing session code or name")], self⟩
  else
    match alookup db sessionCode with
    | none => ⟨db, [(self.id, .errorMsg "Invalid session code")], self⟩
    | some session =>
      match alookup session.students name with
      | none => ⟨db, [(self.id, .errorMsg "Student not found in session")], self⟩
      | some st =>
        let d : SockData :=
          { name := name
            sessionCode := sessionCode
            isTeacher := false
            reconnected := true }
        let self' : Sock :=
          { self with
            room := some sessionCode
            data := some d }
        let st' := { st with socketId := some self.id, lastActive := now }
        let session' :=
          { session with students := aset session.students name st' }
        let db' := dbSet db sessionCode session'
        let emits :=
          [(self.id, Event.sessionData session' none),
           (self.id, Event.slideChange session'.currentSlide
              (isSlideWithCoding session' session'.currentSlide) none)] ++
          (if st.code ≠ "" then [(self.id, Event.codeRestore st.code)] else [])
        ⟨db', emits, self'⟩

/-- The `join-session` handler. `freshToken` stands for
`crypto.randomBytes(16).toString('hex')`. -/
def joinSessionHandler (db : SessionDB) (room : List Sock) (self : Sock)
    (sessionCode name : String) (freshToken : String) (now : Nat) :
    HandlerResult :=
  if sessionCode = "" || name = "" then
    ⟨db, [(self.id, .errorMsg "Invalid session code or name format")], self⟩
  else
    match alookup db sessionCode with
    | none => ⟨db, [(self.id, .errorMsg "Invalid session code")], self⟩
    | some session =>
      if session.active = false then
        ⟨db, [(self.id, .errorMsg "This session has ended")], self⟩
      else
        let d : SockData :=
          { name := name
            sessionCode := sessionCode
            isTeacher := false
            reconnectToken := some freshToken }
        let self' : Sock :=
          { self with
            room := some sessionCode
            data := some d }
        let st : Student :=
          { joinedAt := now
            code := ""
            socketId := some self.id
            lastActive := now
            reconnectToken := some freshToken }
        let session' :=
          { session with students := aset session.students name st }
        let db' := dbSet db sessionCode session'
        let others := room.filter fun s =>
          s.room = some sessionCode && s.id ≠ self.id
        ⟨db',
         [(self.id, Event.sessionData session' (some freshToken)),
          (self.id, Event.slideChange session'.currentSlide
             (isSlideWithCoding session' session'.currentSlide) none)] ++
           others.map (fun s => (s.id, Event.userJoined name)),
         self'⟩

/-- Outcome of an HTTP handler: the store, the status code, the `success`
flag of the JSON body. -/
structure HttpResult where
  db : SessionDB
  status : Nat
  success : Bool
deriving Repr, DecidableEq

/-- `POST /api/sessions/:sessionCode/join` of the in-memory server. -/
def joinSessionHttp (db : SessionDB) (sessionCode studentName : String)
    (now : Nat) : HttpResult :=
  if studentName = "" then ⟨db, 400, false⟩
  else
    match alookup db sessionCode with
    | none => ⟨db, 404, false⟩
    | some session =>
      if !session.active then ⟨db, 400, false⟩
      else
        let st : Student := { joinedAt := now, code := "", lastActive := now }
        ⟨dbSet db sessionCode
           { session with students := aset session.students studentName st },
         200, true⟩

/-- `PUT /api/sessions/:sessionCode/slide/:slideIndex`: the route parameter
goes through `parseInt`; `none` stands for `NaN`. -/
def updateCurrentSlideHttp (db : SessionDB) (sessionCode : String)
    (slideNum? : Option Int) (now : Nat) : HttpResult :=
  match slideNum? with
  | none => ⟨db, 400, false⟩
  | some slideNum =>
    if slideNum < 0 then ⟨db, 400, false⟩
    else
      match alookup db sessionCode with
      | none => ⟨db, 404, false⟩
      | some session =>
        ⟨dbSet db sessionCode
           { session with currentSlide := slideNum, updatedAt := now },
         200, true⟩

/-- The `update-slide` socket handler; the payload's `slideIndex` is `none`
when `typeof data.slideIndex !== 'number'`. -/
def updateSlideHandler (db : SessionDB) (room : List Sock) (self : Sock)
    (slideIndex? : Option Int) (now : Nat) :
    SessionDB × List (Nat × Event) :=
  match slideIndex? with
  | none => (db, [(self.id, .errorMsg "Invalid slide data format")])
  | some slideIndex =>
    match self.data with
    | none => (db, [(self.id, .errorMsg "Not authorized to change slides")])
    | some d =>
      if d.sessionCode = "" || !d.isTeacher then
        (db, [(self.id, .errorMsg "Not authorized to change slides")])
      else
        match alookup db d.sessionCode with
        | none => (db, [])
        | some session =>
          let session' :=
            { session with currentSlide := slideIndex, updatedAt := now }
          let db' := dbSet db d.sessionCode session'
          let hasCodeEditor := isSlideWithCoding session' slideIndex
          let slidePrompt :=
            match getSlide? session'.slides slideIndex with
            | some sl => sl.prompt
            | none => ""
          let targets := room.filter fun s => s.room = some d.sessionCode
          (db', targets.map fun s =>
            (s.id, Event.slideChange slideIndex hasCodeEditor (some slidePrompt)))

/-- `generateCodeSummary(task, code, sessionCode, studentName)`: the
rate-limited front of the evaluator. `evalFn` stands for
`evaluateSubmission` (which never throws: its own catch returns the
default). Returns the summary (or `null`) and the updated limiter map. -/
def generateCodeSummary (task code sessionCode studentName : String)
    (rl : List (String × Nat)) (now : Nat)
    (evalFn : String → String → Summary) :
    Option Summary × List (String × Nat) :=
  let rateKey := sessionCode ++ ":" ++ studentName
  if rlAccepts (alookup rl rateKey) now then
    (some (evalFn task code), aset rl rateKey now)
  else
    (none, rl)

/-- The task text for the evaluator: the current slide's prompt when that
slide exists and its prompt is truthy, else `"Coding task"`. -/
def taskOf (session : Session) : String :=
  match getSlide? session.slides session.currentSlide with
  | some sl => if sl.prompt = "" then "Coding task" else sl.prompt
  | none => "Coding task"

/-- Result of the `code-update` handler: store, emissions, limiter map, and
the (task, code) arguments of every `evaluateSubmission` call made. -/
structure CodeUpdateResult where
  db : SessionDB
  emits : List (Nat × Event)
  rl : List (String × Nat)
  evalCalls : List (String × String)
deriving Repr, DecidableEq

/-- The `code-update` socket handler; `code?` is `none` when
`typeof data.code !== 'string'`. -/
def codeUpdateHandler (db : SessionDB) (room : List Sock) (self : Sock)
    (code? : Option String) (now : Nat) (rl : List (String × Nat))
    (evalFn : String → String → Summary) : CodeUpdateResult :=
  match code? with
  | none => ⟨db, [(self.id, .errorMsg "Invalid code data format")], rl, []⟩
  | some code =>
    match self.data with
    | none => ⟨db, [(self.id, .errorMsg "Not in a session")], rl, []⟩
    | some d =>
      if d.sessionCode = "" || d.name = "" then
        ⟨db, [(self.id, .errorMsg "Not in a session")], rl, []⟩
      else
        match alookup db d.sessionCode with
        | none => ⟨db, [], rl, []⟩
        | some session =>
          if !d.isTeacher then
            let db1 := (updateStudentCode db d.sessionCode d.name code now).1
            let teachers := teachersIn room d.sessionCode
            let codeEmits := teachers.map fun t =>
              (t.id, Event.studentCodeUpdate d.name code)
            if 10 < code.length then
              let task := taskOf session
              let gcs := generateCodeSummary task code d.sessionCode d.name rl now evalFn
              match gcs.1 with
              | some summary =>
                (match alookup db1 d.sessionCode with
                 | none => ⟨db1, codeEmits, gcs.2, [(task, code)]⟩
                 | some session1 =>
                   let st :=
                     match alookup session1.students d.name with
                     | some st => st
                     | none => {}
                   let st' := { st with summary := some summary }
                   let session2 :=
                     { session1 with students := aset session1.students d.name st' }
                   ⟨dbSet db1 d.sessionCode session2,
                    codeEmits ++ teachers.map (fun t =>
                      (t.id, Event.studentSummaryUpdate d.name summary)),
                    gcs.2, [(task, code)]⟩)
              | none => ⟨db1, codeEmits, gcs.2, []⟩
            else
              ⟨db1, codeEmits, rl, []⟩
          else
            ⟨dbSet db d.sessionCode { session with currentCode := code },
             [], rl, []⟩

/-- Result of the `disconnect` handler: store, emissions, and the wall-clock
time at which the scheduled 5-minute removal task will fire (if one was
scheduled). -/
structure DisconnectResult where
  db : SessionDB
  emits : List (Nat × Event)
  removalAt : Option Nat
deriving Repr, DecidableEq

/-- The body of the `setTimeout` scheduled on student disconnect: delete the
student iff `disconnectedAt` is still set and `reconnectedAt` is unset. -/
def removalTask (db : SessionDB) (sessionCode name : String) : SessionDB :=
  match alookup db sessionCode with
  | none => db
  | some session =>
    match alookup session.students name with
    | none => db
    | some st =>
      if st.disconnectedAt.isSome && st.reconnectedAt.isNone then
        dbSet db sessionCode
          { session with students := adel session.students name }
      else db

/-- The `disconnect` handler (the teacher branch's summary-timer cleanup is
timer bookkeeping, not session state). -/
def disconnectHandler (db : SessionDB) (room : List Sock) (self : Sock)
    (now : Nat) : DisconnectResult :=
  match self.data with
  | none => ⟨db, [], none⟩
  | some d =>
    if d.sessionCode = "" || d.name = "" then ⟨db, [], none⟩
    else
      let others := room.filter fun s =>
        s.room = some d.sessionCode && s.id ≠ self.id
      let leftEmits := others.map fun s => (s.id, Event.userLeft d.name)
      if d.isTeacher then
        ⟨db, leftEmits, none⟩
      else
        match alookup db d.sessionCode with
        | none => ⟨db, leftEmits, none⟩
        | some session =>
          match alookup session.students d.name with
          | none => ⟨db, leftEmits, none⟩
          | some st =>
            let st' := { st with disconnectedAt := some now }
            let session' :=
              { session with students := aset session.students d.name st' }
            ⟨dbSet db d.sessionCode session', leftEmits, some (now + 300000)⟩

/- ==================================================================
Theorems
================================================================== -/

/-- Helper: a successful `stripPythonCmd` means the command begins with the
characters `python`. -/
theorem stripPythonCmd_head (l r : List Char) (h : stripPythonCmd l = some r) :
    l.take 6 = ['p', 'y', 't', 'h', 'o', 'n'] := by
  unfold stripPythonCmd at h
  split at h
  · rfl
  · exact absurd h (by simp)

/--
C4 — counterexample. The claim says that on a rate-limit the client backs
off roughly 30 s and retries exactly once, returning the default if that
single retry also fails. In `AIsummary.js` the back-off is 10 s
(`delay(10000)`), and with two consecutive 429s followed by a valid
response the client performs a third attempt and returns that response
instead of the default: the retry is unbounded, not single.
-/
theorem C4_counterexample :
    retryDelayMs = 10000 ∧
    analyzeStudentCode
        [ApiOutcome.apiRateLimited, ApiOutcome.apiRateLimited,
         ApiOutcome.ok { progress := "allDone", feedback := "Looks correct" }] =
      { progress := "allDone", feedback := "Looks correct" } ∧
    ({ progress := "allDone", feedback := "Looks correct" } : Summary) ≠
      defaultResponse ∧
    attemptsUsed
        [ApiOutcome.apiRateLimited, ApiOutcome.apiRateLimited,
         ApiOutcome.ok { progress := "allDone", feedback := "Looks correct" }] = 3 := by
  refine ⟨rfl, rfl, ?_, rfl⟩
  decide

/--
C4 — amended. On a rate-limit `analyzeStudentCode` waits `retryDelayMs`
(10 s, not ~30 s) and retries, and keeps retrying while the model keeps
answering 429 (there is no single-retry bound); the result is the payload
of the first non-rate-limited attempt when that attempt parses, and the
default `{notStarted, "Please start"}` otherwise — so a rate-limit is never
surfaced to the caller as an error, and the caller always receives either a
parsed result or the default.
-/
theorem C4_retry_loop (outcomes : List ApiOutcome) :
    retryDelayMs = 10000 ∧
    evaluateSubmission outcomes =
      (match outcomes.dropWhile ApiOutcome.isRateLimited with
       | ApiOutcome.ok r :: _ => r
       | _ => defaultResponse) := by
  refine ⟨rfl, ?_⟩
  induction outcomes with
  | nil => rfl
  | cons o rest ih =>
    cases o with
    | ok r => rfl
    | noFunctionCall => rfl
    | apiError => rfl
    | apiRateLimited =>
      simpa [evaluateSubmission, analyzeStudentCode, List.dropWhile,
        ApiOutcome.isRateLimited] using ih

/--
C8 — confirmed. Every command string that `execPromise` actually spawns a
child process for passes the whitelist regex: it starts with `python`, and
the interpreter is invoked on a captured path made of path characters and
ending in `.py`. Every string the regex does not match is rejected with an
error before any process is spawned.
-/
theorem C8_command_whitelist (cmd : String) :
    ((execPromise cmd).didSpawn = true →
      ∃ p, parseSafeCommand cmd = some p ∧
        execPromise cmd = .spawned p ∧
        cmd.data.take 6 = ['p', 'y', 't', 'h', 'o', 'n'] ∧
        endsWithDotPy p = true ∧
        p.all isPathChar = true) ∧
    (parseSafeCommand cmd = none →
      execPromise cmd =
        .rejected "Only Python execution with safe parameters is allowed") := by
  constructor
  · intro hspawn
    match hp : parseSafeCommand cmd with
    | none =>
      exfalso
      rw [execPromise, hp] at hspawn
      exact absurd hspawn (by simp [ExecOutcome.didSpawn])
    | some p =>
      refine ⟨p, rfl, by rw [execPromise, hp], ?_, ?_, ?_⟩
      · -- the parser only succeeds after `stripPythonCmd`
        unfold parseSafeCommand at hp
        match hs : stripPythonCmd cmd.data with
        | none => rw [hs] at hp; exact absurd hp (by simp)
        | some r1 => exact stripPythonCmd_head _ _ hs
      · -- the captured run passed the `.py`-suffix test
        unfold parseSafeCommand at hp
        match hs : stripPythonCmd cmd.data with
        | none => rw [hs] at hp; exact absurd hp (by simp)
        | some r1 =>
          rw [hs] at hp
          simp only [] at hp
          split at hp
          · exact absurd hp (by simp)
          · split at hp
            · split at hp
              · simp only [Option.some.injEq] at hp
                subst hp
                assumption
              · split at hp
                · simp only [Option.some.injEq] at hp
                  subst hp
                  assumption
                · exact absurd hp (by simp)
            · exact absurd hp (by simp)
      · -- the captured run is a `takeWhile isPathChar`
        unfold parseSafeCommand at hp
        match hs : stripPythonCmd cmd.data with
        | none => rw [hs] at hp; exact absurd hp (by simp)
        | some r1 =>
          rw [hs] at hp
          simp only [] at hp
          split at hp
          · exact absurd hp (by simp)
          · split at hp
            · split at hp
              · simp only [Option.some.injEq] at hp
                subst hp
                exact List.all_eq_true.mpr fun c hc =>
                  List.mem_takeWhile_imp hc
              · split at hp
                · simp only [Option.some.injEq] at hp
                  subst hp
                  exact List.all_eq_true.mpr fun c hc =>
                    List.mem_takeWhile_imp hc
                · exact absurd hp (by simp)
            · exact absurd hp (by simp)
  · intro hp
    rw [execPromise, hp]

/-- C8 — witness: a legitimate Python invocation is spawned and a shell
command outside the whitelist is rejected before spawning. -/
theorem C8_command_whitelist_witness :
    (∃ p, parseSafeCommand "python /tmp/ab.py" = some p ∧
        execPromise "python /tmp/ab.py" = .spawned p ∧
        "python /tmp/ab.py".data.take 6 = ['p', 'y', 't', 'h', 'o', 'n'] ∧
        endsWithDotPy p = true ∧
        p.all isPathChar = true) ∧
    execPromise "rm -rf /" =
      .rejected "Only Python execution with safe parameters is allowed" :=
  ⟨(C8_command_whitelist "python /tmp/ab.py").1 (by decide),
   (C8_command_whitelist "rm -rf /").2 (by decide)⟩

/-- Is this event an `error` emission? -/
def Event.isError : Event → Bool
  | .errorMsg _ => true
  | _ => false

/- Concrete scenario shared by the reconnect/grace-window claims: session
`abcdef` holds student `alice`, who joined at 500, has draft `print(1)`,
was issued reconnect token `aaaa`, and disconnected at time 1000. -/

/-- Alice's record right after her disconnect at time 1000. -/
def aliceDisc : Student :=
  { joinedAt := 500
    code := "print(1)"
    socketId := some 7
    lastActive := 900
    reconnectToken := some "aaaa"
    disconnectedAt := some 1000 }

/-- The session document holding the disconnected Alice. -/
def sessDisc : Session :=
  { sessionCode := "abcdef", students := [("alice", aliceDisc)] }

/-- The store holding that single session. -/
def dbDisc : SessionDB := [("abcdef", sessDisc)]

/-- The result of Alice reconnecting on a fresh socket (id 9) at time 61000
— inside the 5-minute grace window — presenting the WRONG token `bbbb`. -/
def reconnectWrongToken : HandlerResult :=
  reconnectSessionHandler dbDisc { id := 9 } "abcdef" "alice" (some "bbbb") 61000

/-- Alice's record as it stands after that reconnect: only `socketId` and
`lastActive` were touched. -/
def aliceReconn : Student :=
  { aliceDisc with socketId := some 9, lastActive := 61000 }

/-- The session document after that reconnect. -/
def sessReconn : Session :=
  { sessDisc with students := [("alice", aliceReconn)] }

/--
C1 — the code contradicts the claim (code bug). The `reconnect-session`
handler never compares the supplied token against the stored
`reconnectToken` (the `token` payload field is destructured and then
ignored; the stored `reconnectToken` is never read anywhere), and it never
sets `reconnectedAt` nor clears `disconnectedAt`. Evaluated at the failing
input: Alice reconnects with the wrong token `bbbb` against stored token
`aaaa`, and the handler succeeds — it emits `session-data`, the current
`slide-change` and a `code-restore`, no `error` — while her record keeps
`disconnectedAt = 1000`, `reconnectedAt = none`.
-/
theorem C1_reconnect_ignores_token :
    reconnectWrongToken.emits =
      [(9, Event.sessionData sessReconn none),
       (9, Event.slideChange 0 false none),
       (9, Event.codeRestore "print(1)")] ∧
    reconnectWrongToken.emits.all (fun p => !p.2.isError) = true ∧
    alookup reconnectWrongToken.db "abcdef" = some sessReconn ∧
    alookup sessReconn.students "alice" = some aliceReconn ∧
    aliceReconn.reconnectToken = some "aaaa" ∧
    aliceReconn.disconnectedAt = some 1000 ∧
    aliceReconn.reconnectedAt = none := by
  refine ⟨rfl, rfl, rfl, rfl, rfl, rfl, rfl⟩

/- Concrete round-trip for the grace-window claim, built step by step
through the handlers themselves: join, draft, disconnect, reconnect within
grace, then the scheduled removal task fires. -/

/-- A fresh session `abcdef` with no students. -/
def dbFresh : SessionDB := [("abcdef", { sessionCode := "abcdef" })]

/-- Alice joins on socket 7 at time 500 (issued token `aaaa`). -/
def c2Join : HandlerResult :=
  joinSessionHandler dbFresh [] { id := 7 } "abcdef" "alice" "aaaa" 500

/-- Alice sends the draft `print(1)` at time 900 (the `code-update` write). -/
def c2Draft : SessionDB :=
  (updateStudentCode c2Join.db "abcdef" "alice" "print(1)" 900).1

/-- Alice's socket drops at time 1000. -/
def c2Disc : DisconnectResult :=
  disconnectHandler c2Draft [] c2Join.sock 1000

/-- Alice reconnects on socket 8 at time 61000, well inside the 5-minute
grace window, presenting her correct token. -/
def c2Reconn : HandlerResult :=
  reconnectSessionHandler c2Disc.db { id := 8 } "abcdef" "alice" (some "aaaa") 61000

/-- The removal task scheduled by the disconnect fires (at time 301000). -/
def c2AfterRemoval : SessionDB :=
  removalTask c2Reconn.db "abcdef" "alice"

/--
C2 — the code contradicts the claim (code bug). The reconnect within the
grace window does restore the draft via `code-restore`, but the Student
record does NOT survive the scheduled removal: the reconnect handler never
clears `disconnectedAt` nor sets `reconnectedAt` (nothing in the program
ever writes `reconnectedAt`), so when the 5-minute task fires its
`disconnectedAt`-set / `reconnectedAt`-unset test still passes and Alice is
deleted even though she reconnected at 61000 < 301000.
-/
theorem C2_grace_reconnect_not_honored :
    c2Disc.removalAt = some 301000 ∧
    (8, Event.codeRestore "print(1)") ∈ c2Reconn.emits ∧
    c2Reconn.emits.all (fun p => !p.2.isError) = true ∧
    (∃ s st, alookup c2Reconn.db "abcdef" = some s ∧
      alookup s.students "alice" = some st ∧
      st.disconnectedAt = some 1000 ∧ st.reconnectedAt = none) ∧
    (∃ s, alookup c2AfterRemoval "abcdef" = some s ∧
      alookup s.students "alice" = none) := by
  refine ⟨rfl, ?_, rfl, ?_, ?_⟩
  · decide
  · exact ⟨_, _, rfl, rfl, rfl, rfl⟩
  · exact ⟨_, rfl, rfl⟩

/-- Helper: writing a key into an association list makes it readable. -/
theorem alookup_aset {α : Type} (l : List (String × α)) (k : String) (v : α) :
    alookup (aset l k v) k = some v := by
  induction l with
  | nil => simp [aset, alookup]
  | cons hd tl ih =>
    by_cases h : hd.1 = k
    · simp [aset, alookup, h]
    · simpa [aset, alookup, h] using ih

/- Concrete session used by the slide / teacher-code-update scenarios: a
one-slide deck driven by teacher `Ms. T` on socket 1. -/

/-- A session whose deck has exactly one slide (index 0). -/
def c5Session : Session :=
  { sessionCode := "abcdef"
    slides := [{ prompt := "Intro", hasCodingTask := false }] }

/-- The store holding that session. -/
def c5db : SessionDB := [("abcdef", c5Session)]

/-- The teacher's socket, joined to the room. -/
def c5Teacher : Sock :=
  { id := 1
    room := some "abcdef"
    data := some { name := "Ms. T", sessionCode := "abcdef", isTeacher := true } }

/-- The teacher navigates to slide 5 of the one-slide deck at time 2000. -/
def c5Run : SessionDB × List (Nat × Event) :=
  updateSlideHandler c5db [c5Teacher] c5Teacher (some 5) 2000

/--
C5 — counterexample. The claim says `update-slide` validates that the index
is in range and rejects out-of-range values with no state change. The
handler only checks `typeof data.slideIndex === 'number'`: on a one-slide
deck, slide index 5 is accepted, written to `currentSlide` (breaking the
legal-index invariant), and broadcast — no `error` is emitted.
-/
theorem C5_counterexample :
    (∃ s, alookup c5Run.1 "abcdef" = some s ∧
      s.currentSlide = 5 ∧
      s.slides ≠ [] ∧
      s.slides.length = 1 ∧
      ¬(0 ≤ s.currentSlide ∧ s.currentSlide < (s.slides.length : Int))) ∧
    c5Run.2 = [(1, Event.slideChange 5 false (some ""))] ∧
    c5Run.2.all (fun p => !p.2.isError) = true := by
  refine ⟨⟨_, rfl, rfl, by decide, rfl, by decide⟩, rfl, rfl⟩

/--
C5 — amended. Neither slide-writing path range-checks the index. The
`update-slide` handler only validates that `slideIndex` is a number: any
numeric index — in range or not — is written to `currentSlide` (together
with `updatedAt`) and broadcast to the room, with `hasCodeEditor = false`
and an empty prompt when the index is out of range; a non-numeric payload
is rejected with an `error` and no state change. The HTTP
`PUT /:code/slide/:idx` rejects only NaN and negative indices and otherwise
writes the index unchecked. Consequently `currentSlide` being a legal index
is not an invariant these operations preserve.
-/
theorem C5_slide_write_unvalidated
    (db : SessionDB) (room : List Sock) (self : Sock) (d : SockData)
    (idx : Int) (now : Nat) (session : Session)
    (hd : self.data = some d) (ht : d.isTeacher = true)
    (hsc : d.sessionCode ≠ "")
    (hs : alookup db d.sessionCode = some session) :
    updateSlideHandler db room self (some idx) now =
      (dbSet db d.sessionCode
        { session with currentSlide := idx, updatedAt := now },
       (room.filter fun s => s.room = some d.sessionCode).map fun s =>
         (s.id, Event.slideChange idx (isSlideWithCoding session idx)
           (some (match getSlide? session.slides idx with
                  | some sl => sl.prompt
                  | none => "")))) ∧
    updateSlideHandler db room self none now =
      (db, [(self.id, Event.errorMsg "Invalid slide data format")]) ∧
    (0 ≤ idx →
      updateCurrentSlideHttp db d.sessionCode (some idx) now =
        ⟨dbSet db d.sessionCode
          { session with currentSlide := idx, updatedAt := now }, 200, true⟩) ∧
    (idx < 0 →
      updateCurrentSlideHttp db d.sessionCode (some idx) now = ⟨db, 400, false⟩) := by
  refine ⟨?_, rfl, ?_, ?_⟩
  · simp [updateSlideHandler, hd, ht, hsc, hs, isSlideWithCoding]
  · intro h0
    simp [updateCurrentSlideHttp, hs, not_lt.mpr h0]
  · intro hneg
    simp [updateCurrentSlideHttp, hs, hneg]

/-- C5 — witness for the amended statement: the concrete out-of-range
navigation above instantiates it. -/
theorem C5_slide_write_unvalidated_witness :
    updateSlideHandler c5db [c5Teacher] c5Teacher (some 5) 2000 =
      (dbSet c5db "abcdef"
        { c5Session with currentSlide := 5, updatedAt := 2000 },
       [(1, Event.slideChange 5 (isSlideWithCoding c5Session 5)
          (some (match getSlide? c5Session.slides 5 with
                 | some sl => sl.prompt
                 | none => "")))]) ∧
    updateCurrentSlideHttp c5db "abcdef" (some 5) 2000 =
      ⟨dbSet c5db "abcdef"
        { c5Session with currentSlide := 5, updatedAt := 2000 }, 200, true⟩ := by
  have h := C5_slide_write_unvalidated c5db [c5Teacher] c5Teacher
    { name := "Ms. T", sessionCode := "abcdef", isTeacher := true }
    5 2000 c5Session rfl rfl (by decide) rfl
  exact ⟨h.1, h.2.2.1 (by decide)⟩

/--
C7 — confirmed. A `code-update` from a joined teacher writes exactly the
session's `currentCode` field — the record-update equality pins every other
field, including every entry of `students`, to its old value — emits
nothing, and makes no evaluator call.
-/
theorem C7_teacher_code_update_frame
    (db : SessionDB) (room : List Sock) (self : Sock) (d : SockData)
    (code : String) (now : Nat) (rl : List (String × Nat))
    (evalFn : String → String → Summary) (session : Session)
    (hd : self.data = some d) (ht : d.isTeacher = true)
    (hsc : d.sessionCode ≠ "") (hn : d.name ≠ "")
    (hs : alookup db d.sessionCode = some session) :
    codeUpdateHandler db room self (some code) now rl evalFn =
      ⟨dbSet db d.sessionCode { session with currentCode := code }, [], rl, []⟩ := by
  simp [codeUpdateHandler, hd, ht, hsc, hn, hs]

/-- C7 — witness: the teacher's scratchpad write on the concrete store. -/
theorem C7_teacher_code_update_frame_witness :
    codeUpdateHandler c5db [c5Teacher] c5Teacher (some "let x = 1") 3000 []
        (fun _ _ => defaultResponse) =
      ⟨dbSet c5db "abcdef" { c5Session with currentCode := "let x = 1" },
       [], [], []⟩ :=
  C7_teacher_code_update_frame c5db [c5Teacher] c5Teacher
    { name := "Ms. T", sessionCode := "abcdef", isTeacher := true }
    "let x = 1" 3000 [] (fun _ _ => defaultResponse) c5Session
    rfl rfl (by decide) (by decide) rfl

/-- The student record the `join-session` socket handler writes. -/
def joinedStudent (sockId : Nat) (freshToken : String) (now : Nat) : Student :=
  { joinedAt := now
    code := ""
    socketId := some sockId
    lastActive := now
    reconnectToken := some freshToken }

/-- The student record the HTTP join endpoint writes (no socket, no token). -/
def httpJoinedStudent (now : Nat) : Student :=
  { joinedAt := now, code := "", lastActive := now }

/--
C9 — confirmed. On a session whose `active` field is `false`, the realtime
`join-session` handler replies with an `error` event and leaves the store —
in particular the session's `students` map — untouched, and the HTTP
`POST /:code/join` replies 400 without touching the store; on an active
session both paths succeed and record the student.
-/
theorem C9_inactive_session_rejects_joins
    (db : SessionDB) (room : List Sock) (self : Sock)
    (sessionCode name freshToken : String) (now : Nat) (session : Session)
    (hs : alookup db sessionCode = some session)
    (hc : sessionCode ≠ "") (hn : name ≠ "") :
    (session.active = false →
      joinSessionHandler db room self sessionCode name freshToken now =
        ⟨db, [(self.id, Event.errorMsg "This session has ended")], self⟩ ∧
      joinSessionHttp db sessionCode name now = ⟨db, 400, false⟩) ∧
    (session.active = true →
      (∃ s, alookup (joinSessionHandler db room self sessionCode name
          freshToken now).db sessionCode = some s ∧
        alookup s.students name = some (joinedStudent self.id freshToken now)) ∧
      (∃ s, alookup (joinSessionHttp db sessionCode name now).db sessionCode =
          some s ∧
        alookup s.students name = some (httpJoinedStudent now)) ∧
      (joinSessionHttp db sessionCode name now).status = 200 ∧
      (joinSessionHttp db sessionCode name now).success = true) := by
  constructor
  · intro hin
    constructor
    · simp [joinSessionHandler, hc, hn, hs, hin]
    · simp [joinSessionHttp, hn, hs, hin]
  · intro hact
    have hsock : (joinSessionHandler db room self sessionCode name
        freshToken now).db =
        dbSet db sessionCode
          { session with
            students := aset session.students name (joinedStudent self.id freshToken now) } := by
      simp [joinSessionHandler, hc, hn, hs, hact, joinedStudent]
    have hhttp : joinSessionHttp db sessionCode name now =
        ⟨dbSet db sessionCode
          { session with
            students := aset session.students name (httpJoinedStudent now) },
         200, true⟩ := by
      simp [joinSessionHttp, hn, hs, hact, httpJoinedStudent]
    refine ⟨⟨{ session with
        students := aset session.students name (joinedStudent self.id freshToken now) },
      ?_, alookup_aset _ _ _⟩,
      ⟨{ session with
        students := aset session.students name (httpJoinedStudent now) },
      ?_, alookup_aset _ _ _⟩, ?_, ?_⟩
    · rw [hsock]; exact alookup_aset _ _ _
    · rw [hhttp]; exact alookup_aset _ _ _
    · rw [hhttp]
    · rw [hhttp]

/-- C9 — witness: an ended copy of the concrete session rejects both join
paths; the active one accepts them. -/
theorem C9_inactive_session_rejects_joins_witness :
    (joinSessionHandler [("abcdef", { c5Session with active := false })] []
        { id := 7 } "abcdef" "alice" "aaaa" 500 =
      ⟨[("abcdef", { c5Session with active := false })],
       [(7, Event.errorMsg "This session has ended")], { id := 7 }⟩) ∧
    (joinSessionHttp [("abcdef", { c5Session with active := false })]
        "abcdef" "alice" 500 =
      ⟨[("abcdef", { c5Session with active := false })], 400, false⟩) ∧
    (∃ s, alookup (joinSessionHttp c5db "abcdef" "alice" 500).db "abcdef" =
        some s ∧
      alookup s.students "alice" = some (httpJoinedStudent 500)) := by
  have h1 := C9_inactive_session_rejects_joins
    [("abcdef", { c5Session with active := false })] [] { id := 7 }
    "abcdef" "alice" "aaaa" 500 { c5Session with active := false }
    rfl (by decide) (by decide)
  have h2 := C9_inactive_session_rejects_joins c5db [] { id := 7 }
    "abcdef" "alice" "aaaa" 500 c5Session rfl (by decide) (by decide)
  exact ⟨(h1.1 rfl).1, (h1.1 rfl).2, (h2.2 rfl).2.1⟩

/-- Is this event a `student-code-update`? -/
def Event.isSCU : Event → Bool
  | .studentCodeUpdate _ _ => true
  | _ => false

/-- Helper: `student-code-update` emissions pass the `isSCU` filter. -/
theorem filter_scu_of_code_emits (l : List Sock) (n c : String) :
    ((l.map fun t => (t.id, Event.studentCodeUpdate n c)).filter
        fun p => p.2.isSCU) =
      l.map fun t => (t.id, Event.studentCodeUpdate n c) := by
  rw [List.filter_eq_self]
  intro a ha
  obtain ⟨t, _, rfl⟩ := List.mem_map.mp ha
  rfl

/-- Helper: `student-summary-update` emissions are dropped by the `isSCU`
filter. -/
theorem filter_scu_of_summary_emits (l : List Sock) (n : String) (s : Summary) :
    ((l.map fun t => (t.id, Event.studentSummaryUpdate n s)).filter
        fun p => p.2.isSCU) = [] := by
  rw [List.filter_eq_nil_iff]
  intro a ha
  obtain ⟨t, _, rfl⟩ := List.mem_map.mp ha
  simp [Event.isSCU]

/--
C6 — confirmed. After a `code-update` from a joined student, the
`student-code-update` emissions are exactly one per teacher socket attached
to the student's room — each carrying the student's name and code — and
(given distinct socket ids) no socket whose data does not carry the teacher
flag, the sender and fellow students included, is the target of any
`student-code-update`.
-/
theorem C6_student_code_fanout
    (db : SessionDB) (room : List Sock) (self : Sock) (d : SockData)
    (code : String) (now : Nat) (rl : List (String × Nat))
    (evalFn : String → String → Summary) (session : Session)
    (hd : self.data = some d) (ht : d.isTeacher = false)
    (hsc : d.sessionCode ≠ "") (hn : d.name ≠ "")
    (hs : alookup db d.sessionCode = some session)
    (huniq : (room.map Sock.id).Nodup) :
    ((codeUpdateHandler db room self (some code) now rl evalFn).emits.filter
        fun p => p.2.isSCU) =
      (teachersIn room d.sessionCode).map
        (fun t => (t.id, Event.studentCodeUpdate d.name code)) ∧
    ∀ e ∈ room, (∀ ed, e.data = some ed → ed.isTeacher = false) →
      ∀ ev ∈ (codeUpdateHandler db room self (some code) now rl evalFn).emits,
        ev.1 = e.id → ev.2.isSCU = false := by
  have hmain : ((codeUpdateHandler db room self (some code) now rl
      evalFn).emits.filter fun p => p.2.isSCU) =
      (teachersIn room d.sessionCode).map
        (fun t => (t.id, Event.studentCodeUpdate d.name code)) := by
    by_cases hlen : 10 < code.length
    · match hg : (generateCodeSummary (taskOf session) code d.sessionCode
          d.name rl now evalFn).1 with
      | some summary =>
        match hdb : alookup
            (updateStudentCode db d.sessionCode d.name code now).1
            d.sessionCode with
        | none =>
          simp only [codeUpdateHandler, hd, hsc, hn, hs, ht, hlen, hg, hdb]
          simp [filter_scu_of_code_emits]
        | some session1 =>
          simp only [codeUpdateHandler, hd, hsc, hn, hs, ht, hlen, hg, hdb]
          simp [List.filter_append, filter_scu_of_code_emits,
            filter_scu_of_summary_emits]
      | none =>
        simp only [codeUpdateHandler, hd, hsc, hn, hs, ht, hlen, hg]
        simp [filter_scu_of_code_emits]
    · simp only [codeUpdateHandler, hd, hsc, hn, hs, ht, hlen]
      simp [filter_scu_of_code_emits]
  refine ⟨hmain, ?_⟩
  intro e he hne ev hev hid
  cases hscu : ev.2.isSCU with
  | false => rfl
  | true =>
    exfalso
    have hmem : ev ∈ ((codeUpdateHandler db room self (some code) now rl
        evalFn).emits.filter fun p => p.2.isSCU) :=
      List.mem_filter.mpr ⟨hev, hscu⟩
    rw [hmain] at hmem
    obtain ⟨t, htmem, rfl⟩ := List.mem_map.mp hmem
    have htroom : t ∈ room ∧ (t.room = some d.sessionCode &&
        (match t.data with
         | some td => td.isTeacher
         | none => false)) = true := List.mem_filter.mp htmem
    have hte : t = e :=
      List.inj_on_of_nodup_map huniq htroom.1 he hid
    subst hte
    match htd : t.data with
    | none =>
      rw [htd] at htroom
      simp at htroom
    | some td =>
      have h2 := htroom.2
      rw [htd] at h2
      simp at h2
      rw [hne td htd] at h2
      exact Bool.false_ne_true h2.2

/-- Alice's endpoint in the fan-out scenario: a joined student on socket 7. -/
def c6Alice : Sock :=
  { id := 7
    room := some "abcdef"
    data := some { name := "alice", sessionCode := "abcdef", isTeacher := false } }

/-- A second student, Bob, on socket 8 in the same room. -/
def c6Bob : Sock :=
  { id := 8
    room := some "abcdef"
    data := some { name := "bob", sessionCode := "abcdef", isTeacher := false } }

/-- The room: the teacher plus the two students. -/
def c6Room : List Sock := [c5Teacher, c6Alice, c6Bob]

/-- C6 — witness: in the concrete three-socket room, Alice's `code-update`
reaches exactly the teacher and no student target carries a
`student-code-update`. -/
theorem C6_student_code_fanout_witness :
    ((codeUpdateHandler c5db c6Room c6Alice (some "print(1)") 900 []
        (fun _ _ => defaultResponse)).emits.filter
      fun p => p.2.isSCU) =
      (teachersIn c6Room "abcdef").map
        (fun t => (t.id, Event.studentCodeUpdate "alice" "print(1)")) ∧
    ∀ e ∈ c6Room, (∀ ed, e.data = some ed → ed.isTeacher = false) →
      ∀ ev ∈ (codeUpdateHandler c5db c6Room c6Alice (some "print(1)") 900 []
          (fun _ _ => defaultResponse)).emits,
        ev.1 = e.id → ev.2.isSCU = false :=
  C6_student_code_fanout c5db c6Room c6Alice
    { name := "alice", sessionCode := "abcdef", isTeacher := false }
    "print(1)" 900 [] (fun _ _ => defaultResponse) c5Session
    rfl rfl (by decide) (by decide) rfl (by decide)

/-- Helper: accepting a call against an occupied slot forces a gap of at
least 10 s (`rlAccepts` returns `false` whenever the stored time is nonzero
and younger than 10000 ms). -/
theorem rlAccepts_some_ge (a t : Nat) (ha : 1 ≤ a)
    (h : rlAccepts (some a) t = true) : a + 10000 ≤ t := by
  unfold rlAccepts at h
  simp at h
  rcases h with h | h <;> omega

/-- Helper: the separation invariant of the rate-limiter trace. Running the
limiter when the slot holds the last accepted time `a` — or is empty but
every remaining event lies at least 10 s after `a` — keeps all accepted
call times 10 s apart, and 10 s after `a`. -/
theorem rlRun_sep (evs : List RLEvent) (a : Nat) (slot : Option Nat)
    (ha : 1 ≤ a)
    (hp : evs.Pairwise fun x y => x.time ≤ y.time)
    (hpos : ∀ t, RLEvent.call t ∈ evs → 1 ≤ t)
    (hslot : slot = some a ∨
      (slot = none ∧ ∀ e ∈ evs, a + 10000 ≤ e.time)) :
    List.Chain' (fun x y => x + 10000 ≤ y) (a :: rlRun slot evs) := by
  induction evs generalizing a slot with
  | nil => simp [rlRun]
  | cons e rest ih =>
    have hhead : ∀ b ∈ rest, e.time ≤ b.time := (List.pairwise_cons.mp hp).1
    have hp' : rest.Pairwise fun x y => x.time ≤ y.time :=
      (List.pairwise_cons.mp hp).2
    have hpos' : ∀ t, RLEvent.call t ∈ rest → 1 ≤ t :=
      fun t ht => hpos t (List.mem_cons_of_mem _ ht)
    cases e with
    | call t =>
      rcases hslot with hsl | ⟨hsl, hfut⟩
      · subst hsl
        by_cases hacc : rlAccepts (some a) t = true
        · rw [rlRun, if_pos hacc]
          have hgap : a + 10000 ≤ t := rlAccepts_some_ge a t ha hacc
          exact List.chain'_cons.mpr ⟨hgap,
            ih t (some t) (by omega) hp' hpos' (Or.inl rfl)⟩
        · rw [rlRun, if_neg hacc]
          exact ih a (some a) ha hp' hpos' (Or.inl rfl)
      · subst hsl
        rw [rlRun, if_pos (show rlAccepts none t = true from rfl)]
        have hgap : a + 10000 ≤ t := hfut _ (List.mem_cons_self _ _)
        exact List.chain'_cons.mpr ⟨hgap,
          ih t (some t) (hpos t (List.mem_cons_self _ _)) hp' hpos' (Or.inl rfl)⟩
    | expire t0 =>
      rcases hslot with hsl | ⟨hsl, hfut⟩
      · subst hsl
        by_cases h0 : t0 = a
        · rw [rlRun, if_pos (by rw [h0])]
          exact ih a none ha hp' hpos'
            (Or.inr ⟨rfl, fun e' he' => by
              have h1 := hhead e' he'
              simp [RLEvent.time] at h1 ⊢
              omega⟩)
        · rw [rlRun, if_neg (by simpa using fun h => h0 h.symm)]
          exact ih a (some a) ha hp' hpos' (Or.inl rfl)
      · subst hsl
        rw [rlRun, if_neg (by simp)]
        exact ih a none ha hp' hpos'
          (Or.inr ⟨rfl, fun e' he' => hfut e' (List.mem_cons_of_mem _ he')⟩)

/-- Helper: from the empty initial limiter state, the accepted call times
of a well-formed event sequence are pairwise at least 10 s apart. -/
theorem rlRun_sep10 (evs : List RLEvent) (h : RLValid evs) :
    Sep10 (rlRun none evs) := by
  obtain ⟨hp, hpos⟩ := h
  induction evs with
  | nil => simp [rlRun, Sep10]
  | cons e rest ih =>
    have hp' : rest.Pairwise fun x y => x.time ≤ y.time :=
      (List.pairwise_cons.mp hp).2
    have hpos' : ∀ t, RLEvent.call t ∈ rest → 1 ≤ t :=
      fun t ht => hpos t (List.mem_cons_of_mem _ ht)
    cases e with
    | call t =>
      rw [rlRun, if_pos (show rlAccepts none t = true from rfl)]
      exact rlRun_sep rest t (some t) (hpos t (List.mem_cons_self _ _)) hp' hpos'
        (Or.inl rfl)
    | expire t0 =>
      rw [rlRun, if_neg (by simp)]
      exact ih hp' hpos'

/-- Helper: a 10 s-separated list meets any half-open 10 s window in at
most one point. -/
theorem sep10_window (l : List Nat) (h : Sep10 l) (w : Nat) :
    (l.filter fun t => decide (w ≤ t ∧ t < w + 10000)).length ≤ 1 := by
  haveI : IsTrans Nat (fun x y => x + 10000 ≤ y) :=
    ⟨fun a b c hab hbc => by omega⟩
  have hpw : l.Pairwise fun x y => x + 10000 ≤ y :=
    (List.chain'_iff_pairwise).mp h
  have hf := hpw.filter (fun t => decide (w ≤ t ∧ t < w + 10000))
  match hl : l.filter fun t => decide (w ≤ t ∧ t < w + 10000) with
  | [] => simp
  | [x] => simp
  | x :: y :: rest =>
    exfalso
    rw [hl] at hf
    have hxy : x + 10000 ≤ y :=
      (List.pairwise_cons.mp hf).1 y (List.mem_cons_self _ _)
    have hxm : x ∈ l.filter fun t => decide (w ≤ t ∧ t < w + 10000) := by
      rw [hl]; exact List.mem_cons_self _ _
    have hym : y ∈ l.filter fun t => decide (w ≤ t ∧ t < w + 10000) := by
      rw [hl]; exact List.mem_cons_of_mem _ (List.mem_cons_self _ _)
    have hx := List.of_mem_filter hxm
    have hy := List.of_mem_filter hym
    simp at hx hy
    omega

/--
C3 — confirmed. For one `(sessionCode, studentName)` key of the summary
rate limiter: over any well-formed event sequence (nondecreasing times,
positive clock), every half-open 10-second window contains at most one
accepted (evaluator-invoking) call; a call arriving while the stored
last-accepted time is less than 10 s old is refused without invoking the
evaluator and without touching the slot; and the expiry timer scheduled by
an accepted call at `t0` fires at `t0 + 20000` and clears the slot it
finds still holding `t0`. The limiter front of `generateCodeSummary`
returns the evaluator's answer exactly when the slot test accepts, and
`null` otherwise.
-/
theorem C3_summary_rate_limit (evs : List RLEvent) (h : RLValid evs) :
    (∀ w, ((rlRun none evs).filter
        fun t => decide (w ≤ t ∧ t < w + 10000)).length ≤ 1) ∧
    (∀ t0 t, 1 ≤ t0 → t < t0 + 10000 →
      rlStep (some t0) (.call t) = (some t0, false)) ∧
    (∀ t0, (RLEvent.expire t0).time = t0 + 20000 ∧
      rlStep (some t0) (.expire t0) = (none, false)) ∧
    (∀ task code sessionCode studentName rl now evalFn,
      (generateCodeSummary task code sessionCode studentName rl now
          evalFn).1 =
        if rlAccepts (alookup rl (sessionCode ++ ":" ++ studentName)) now
        then some (evalFn task code) else none) := by
  refine ⟨fun w => sep10_window _ (rlRun_sep10 evs h) w, ?_, ?_, ?_⟩
  · intro t0 t h1 h2
    have hacc : rlAccepts (some t0) t = false := by
      unfold rlAccepts
      simp
      exact ⟨by omega, by omega⟩
    simp [rlStep, hacc]
  · intro t0
    exact ⟨rfl, by simp [rlStep]⟩
  · intro task code sessionCode studentName rl now evalFn
    unfold generateCodeSummary
    by_cases hacc :
        rlAccepts (alookup rl (sessionCode ++ ":" ++ studentName)) now = true
    · rw [if_pos hacc, if_pos hacc]
    · rw [if_neg hacc, if_neg hacc]

/-- C3 — witness: a concrete trace — accepted call at 1000, refused call at
5000, expiry at 21000, accepted call at 21500 — instantiates every part. -/
theorem C3_summary_rate_limit_witness :
    ((rlRun none [RLEvent.call 1000, RLEvent.call 5000, RLEvent.expire 1000,
        RLEvent.call 21500]).filter
      fun t => decide (0 ≤ t ∧ t < 0 + 10000)).length ≤ 1 ∧
    rlStep (some 1000) (.call 5000) = (some 1000, false) ∧
    rlStep (some 1000) (.expire 1000) = (none, false) := by
  have h : RLValid [RLEvent.call 1000, RLEvent.call 5000, RLEvent.expire 1000,
      RLEvent.call 21500] := by
    constructor
    · simp [RLEvent.time]
    · intro t ht
      simp at ht
      rcases ht with h | h | h <;> omega
  have hc := C3_summary_rate_limit
    [RLEvent.call 1000, RLEvent.call 5000, RLEvent.expire 1000,
     RLEvent.call 21500] h
  exact ⟨hc.1 0, hc.2.1 1000 5000 (by omega) (by omega), (hc.2.2.1 1000).2⟩

end Tomatocode
